import Mathlib

/-!
Shallow embedding of the `vscreen/updater` Go package (src/updater.go,
src/info.go): a self-update pipeline consisting of an archive unpacker,
a fetch-then-unpack poll cycle, a ticker-driven poll loop, and a
process-replacement routine.

External collaborators (the zip reader, the JSON decoder, the
filesystem and the process table of the operating system) are modelled
explicitly: files are an association list from path to file data, the
zip archive is a list of named entries, and JSON decoding is a concrete
parser for UTF-8 JSON objects with string fields, the shape the spec
fixes for the metadata entry.
-/

namespace Updater

/-- Release metadata decoded from the archive's `info.json` entry
(src/info.go: struct `Info` with string fields name/version/description). -/
structure Info where
  name : String
  version : String
  description : String
deriving DecidableEq, Repr

/-- One named entry of the downloaded zip archive; its content is the
entry's byte sequence, modelled as a list of characters. -/
structure Entry where
  name : String
  content : List Char
deriving DecidableEq, Repr

/-- Data stored in one file of the modelled filesystem: either raw bytes
or a zip archive already parsed into its entries. -/
inductive FileData where
  | bytes (bs : List Char)
  | archive (entries : List Entry)
deriving DecidableEq, Repr

/-- The filesystem: an association list from path to file data, where a
more recent binding shadows older ones. -/
abbrev FS := List (String × FileData)

/-- Look a path up in the filesystem. -/
def FS.lookup : FS → String → Option FileData
  | [], _ => none
  | (q, v) :: rest, p => if q = p then some v else FS.lookup rest p

/-- Create or overwrite the file at `p` (os.Create followed by a full
io.Copy, or the write side of os.Rename). -/
def FS.set (fs : FS) (p : String) (v : FileData) : FS :=
  (p, v) :: fs

/-- Delete the file at `p` (os.Remove, or the unlink side of os.Rename). -/
def FS.remove (fs : FS) (p : String) : FS :=
  fs.filter (fun e => e.1 != p)

/-- Whitespace skipping of the JSON decoder (space, tab, newline,
carriage return, as in RFC 8259). -/
def skipWs : List Char → List Char
  | [] => []
  | c :: rest =>
    if c = ' ' || c = '\t' || c = '\n' || c = '\r' then skipWs rest else c :: rest

/-- Consume the body of a JSON string literal up to its closing quote;
the opening quote has already been consumed. -/
def takeStr : List Char → Option (String × List Char)
  | [] => none
  | c :: rest =>
    if c = '"' then some ("", rest)
    else
      match takeStr rest with
      | some (s, r) => some (String.mk (c :: s.data), r)
      | none => none

/-- Parse a JSON string literal, returning its contents and the rest of
the input. -/
def parseStr (cs : List Char) : Option (String × List Char) :=
  match cs with
  | '"' :: rest => takeStr rest
  | _ => none

/-- Parse the members of a JSON object after its opening brace: a
non-empty comma-separated list of string-key/string-value pairs followed
by the closing brace. The fuel argument bounds the recursion by the
input length. -/
def parseMembers : Nat → List Char → Option (List (String × String) × List Char)
  | 0, _ => none
  | fuel + 1, cs =>
    match parseStr (skipWs cs) with
    | none => none
    | some (k, r1) =>
      match skipWs r1 with
      | ':' :: r2 =>
        match parseStr (skipWs r2) with
        | none => none
        | some (v, r3) =>
          match skipWs r3 with
          | ',' :: r4 =>
            match parseMembers fuel r4 with
            | some (ps, r) => some ((k, v) :: ps, r)
            | none => none
          | '\x7d' :: r4 => some ([(k, v)], r4)
          | _ => none
      | _ => none

/-- Modelled from the spec: the metadata entry is "a UTF-8 JSON object
entry (fields name, version, description, all strings)"; this parses one
JSON object whose values are strings, the shape `encoding/json` decodes
into `Info`. Trailing input after the object is ignored, as
`json.Decoder.Decode` reads a single value from its stream. -/
def parseObj (cs : List Char) : Option (List (String × String)) :=
  match skipWs cs with
  | '\x7b' :: r =>
    match skipWs r with
    | '\x7d' :: _ => some []
    | r2 =>
      match parseMembers (r2.length + 1) r2 with
      | some (ps, _) => some ps
      | none => none
  | _ => none

/-- Last-wins field lookup among the decoded object members, defaulting
to the empty string, matching `encoding/json` struct decoding (a missing
field keeps the zero value, a duplicate key keeps the last occurrence). -/
def fieldOf (ps : List (String × String)) (k : String) : String :=
  ps.foldl (fun acc p => if p.1 = k then p.2 else acc) ""

/-- Modelled from the spec: decode the metadata entry's content as UTF-8
JSON into `Info` (src/updater.go line 154, `json.NewDecoder(...).Decode`);
`none` is a JSON decode failure. -/
def decodeInfo (cs : List Char) : Option Info :=
  match parseObj cs with
  | some ps => some ⟨fieldOf ps "name", fieldOf ps "version", fieldOf ps "description"⟩
  | none => none

/-- Error kinds `unpack` can produce in the model: `openError` is a
zip.OpenReader failure (the path does not hold an archive),
`archiveError` is the missing-entry error of src/updater.go line 147,
`decodeError` is a JSON decode failure (line 154). -/
inductive UErr where
  | openError
  | archiveError
  | decodeError
deriving DecidableEq, Repr

/-- State of the entry scan loop of `unpack` (src/updater.go lines
131-144): the id the next opened entry handle will get, and the handle
and content last assigned to `infoFile` and to `binaryFile`. -/
structure ScanState where
  nextId : Nat
  infoSel : Option (Nat × List Char)
  binSel : Option (Nat × List Char)
deriving DecidableEq, Repr

/-- The entry scan loop of `unpack`: every entry is opened (receiving
the next handle id); an entry named `"info.json"` becomes the metadata
selection and an entry named `ep` (the executable path) becomes the
binary selection, later entries overwriting earlier ones, with the
cases tried in the order of the Go switch. -/
def scanEntries (ep : String) : List Entry → ScanState → ScanState
  | [], s => s
  | e :: rest, s =>
    let h := s.nextId
    let s1 : ScanState :=
      if e.name = "info.json" then
        { nextId := h + 1, infoSel := some (h, e.content), binSel := s.binSel }
      else if e.name = ep then
        { nextId := h + 1, infoSel := s.infoSel, binSel := some (h, e.content) }
      else
        { nextId := h + 1, infoSel := s.infoSel, binSel := s.binSel }
    scanEntries ep rest s1

/-- Result of scanning a whole archive, starting after the archive
handle (id 0) has been opened, so entry handles are numbered from 1. -/
def scanOf (ep : String) (ar : List Entry) : ScanState :=
  scanEntries ep ar { nextId := 1, infoSel := none, binSel := none }

/-- Outcome of one `unpack` call: its returned value, the filesystem
after the call, and the zip handles (archive handle 0 and one handle per
entry) that were opened and those that were closed before returning. -/
structure UnpackOut where
  res : Except UErr Info
  fs : FS
  opened : List Nat
  closed : List Nat
deriving Repr

/-- Handles still open when `unpack` returns. -/
def UnpackOut.leftOpen (o : UnpackOut) : List Nat :=
  o.opened.filter (fun h => !(o.closed.contains h))

/-- Model of `Updater.unpack` (src/updater.go lines 121-166). The
archive at `path` is opened (handle 0, closed by `defer r.Close()` on
every later path); every entry is opened in the scan loop; if either
selection is missing the missing-entry error is returned with only the
archive handle closed; otherwise `defer` closes for the two selected
handles are registered, the metadata content is decoded, and only on
decode success is the staged file created at `ep ++ ".new"` and filled
with the binary entry's content. -/
def unpack (ep : String) (path : String) (fs : FS) : UnpackOut :=
  match fs.lookup path with
  | some (.archive ar) =>
    let s := scanOf ep ar
    let opened := List.range (ar.length + 1)
    match s.infoSel, s.binSel with
    | some (hi, ci), some (hb, cb) =>
      match decodeInfo ci with
      | none =>
        { res := .error .decodeError, fs := fs, opened := opened, closed := [hb, hi, 0] }
      | some i =>
        { res := .ok i, fs := fs.set (ep ++ ".new") (.bytes cb),
          opened := opened, closed := [hb, hi, 0] }
    | _, _ =>
      { res := .error .archiveError, fs := fs, opened := opened, closed := [0] }
  | _ =>
    { res := .error .openError, fs := fs, opened := [], closed := [] }

/-- Content of the last entry of `ar` named `n`, with `acc` as the value
when no such entry occurs; this is the selection the Go scan loop makes,
since later matches overwrite earlier ones. -/
def lastNamed (n : String) : List Entry → Option (List Char) → Option (List Char)
  | [], acc => acc
  | e :: rest, acc => lastNamed n rest (if e.name = n then some e.content else acc)

/-- Modelled from the spec: outcome of one `fetch` call decided by the
network (src/updater.go lines 101-117). `getError` covers `http.Get` or
`ioutil.TempFile` failing, before any temporary file outlives the call;
`copyError` is `io.Copy` of the response body failing after the
temporary file was created, in which case `fetch` returns the file's
name together with the error; `ok` is a complete download of an archive
into the temporary file. -/
inductive FetchOutcome where
  | getError
  | copyError (tmp : String) (pb : List Char)
  | ok (tmp : String) (entries : List Entry)
deriving DecidableEq, Repr

/-- Error kinds of one poll cycle: a transport failure in `fetch`, or an
`unpack` failure. -/
inductive UpdErr where
  | transportError
  | unpackError (e : UErr)
deriving DecidableEq, Repr

/-- Model of `Updater.update` (src/updater.go lines 91-98): run `fetch`;
on a fetch error return it at once — so a temporary file that
`copyError` left behind is NOT removed, because the early return happens
before `defer os.Remove(archivePath)` is registered; on fetch success
register the remove, run `unpack` on the temporary file, and remove the
temporary file before returning `unpack`'s result. -/
def update (ep : String) (fo : FetchOutcome) (fs : FS) : Except UpdErr Info × FS :=
  match fo with
  | .getError => (.error .transportError, fs)
  | .copyError tmp pb => (.error .transportError, fs.set tmp (.bytes pb))
  | .ok tmp entries =>
    let fs1 := fs.set tmp (.archive entries)
    let out := unpack ep tmp fs1
    let fs2 := out.fs.remove tmp
    match out.res with
    | .ok i => (.ok i, fs2)
    | .error e => (.error (.unpackError e), fs2)

/-- One event the poll loop's `select` observes: an interval tick
(carrying the fetch outcome the network will produce for that cycle's
`fetch`), or the context's cancellation becoming observed. -/
inductive Ev where
  | tick (fo : FetchOutcome)
  | done
deriving DecidableEq, Repr

/-- Whether an event is an interval tick. -/
def Ev.isTick : Ev → Bool
  | .tick _ => true
  | .done => false

/-- Model of the goroutine of `Updater.StartUpdater` (src/updater.go
lines 72-86) run over a finite trace of observed events: on a tick, one
full `update` cycle runs to completion; its `Info` is sent on the
channel on success and discarded on failure; on `done` the loop breaks.
Returns the emitted values in order together with the final filesystem. -/
def pollLoop (ep : String) : List Ev → FS → List Info × FS
  | [], fs => ([], fs)
  | .done :: _, fs => ([], fs)
  | .tick fo :: rest, fs =>
    match (update ep fo fs).1 with
    | .ok i =>
      let r := pollLoop ep rest (update ep fo fs).2
      (i :: r.1, r.2)
    | .error _ => pollLoop ep rest (update ep fo fs).2

/-- One process of the modelled process table, with the attributes
`os.StartProcess` receives (src/updater.go lines 48-53). -/
structure Proc where
  pid : Nat
  exe : String
  args : List String
  env : List (String × String)
  files : List Nat
  dir : String
deriving DecidableEq, Repr

/-- The world `RestartAndUpdate` acts on: the filesystem, the process
table, the current process's pid, argument vector, environment and
standard stream files, and the pid the next spawned process will get. -/
structure World where
  fs : FS
  procs : List Proc
  selfPid : Nat
  args : List String
  env : List (String × String)
  stdioFiles : List Nat
  nextPid : Nat
deriving DecidableEq, Repr

/-- Error kinds of `RestartAndUpdate`: the rename failing, or
`os.StartProcess` failing. -/
inductive RError where
  | renameError
  | spawnError
deriving DecidableEq, Repr

/-- Observable side effects of `RestartAndUpdate`, in the order they
happen. -/
inductive RsEv where
  | renamed (src : String) (dst : String)
  | spawned (p : Proc)
  | killed (pid : Nat)
deriving DecidableEq, Repr

/-- Modelled from the spec: `filepath.Dir`, the directory containing the
path's last component; a path without a separator yields ".". -/
def dirOf (p : String) : String :=
  match (p.data.reverse).dropWhile (fun c => c ≠ '/') with
  | [] => "."
  | ['/'] => "/"
  | '/' :: r => String.mk r.reverse
  | _ => "."

/-- Model of `os.Rename`: fails (returns `none`) when the source does
not exist; otherwise moves the source's data to the destination,
overwriting it. -/
def renameFile (fs : FS) (src : String) (dst : String) : Option FS :=
  match fs.lookup src with
  | none => none
  | some v => some ((fs.remove src).set dst v)

/-- Result of `RestartAndUpdate`: the returned value, the world after
the call, and the trace of side effects in order. -/
structure RsOut where
  res : Except RError Unit
  world : World
  trace : List RsEv
deriving Repr

/-- Model of `Updater.RestartAndUpdate` (src/updater.go lines 42-64):
rename the executable at `ep` to `ep ++ ".old"`, returning at once on
failure; then spawn a new process from `ep` with the current process's
argument vector, environment and standard stream files and with working
directory `dirOf ep` (`spawnOk` is the operating system's verdict on the
spawn, returned as an error when false); then kill the current process. -/
def restartAndUpdate (ep : String) (spawnOk : Bool) (w : World) : RsOut :=
  match renameFile w.fs ep (ep ++ ".old") with
  | none => { res := .error .renameError, world := w, trace := [] }
  | some fs1 =>
    if spawnOk then
      let p : Proc :=
        { pid := w.nextPid, exe := ep, args := w.args, env := w.env,
          files := w.stdioFiles, dir := dirOf ep }
      let w1 : World :=
        { w with fs := fs1,
                 procs := (w.procs ++ [p]).filter (fun q => q.pid != w.selfPid),
                 nextPid := w.nextPid + 1 }
      { res := .ok (), world := w1,
        trace := [.renamed ep (ep ++ ".old"), .spawned p, .killed w.selfPid] }
    else
      { res := .error .spawnError, world := { w with fs := fs1 },
        trace := [.renamed ep (ep ++ ".old")] }

/-! Supporting lemmas. -/

theorem FS.lookup_set_self (fs : FS) (p : String) (v : FileData) :
    (fs.set p v).lookup p = some v := by
  simp [FS.set, FS.lookup]

theorem FS.lookup_set_ne (fs : FS) (p q : String) (v : FileData) (h : p ≠ q) :
    (fs.set p v).lookup q = fs.lookup q := by
  simp [FS.set, FS.lookup, h]

theorem FS.lookup_remove_self (fs : FS) (p : String) :
    (fs.remove p).lookup p = none := by
  induction fs with
  | nil => rfl
  | cons e rest ih =>
    by_cases h : e.1 = p
    · simpa [FS.remove, List.filter_cons, h] using ih
    · simpa [FS.remove, FS.lookup, List.filter_cons, h] using ih

theorem String.ne_self_append (s : String) (t : String) (ht : t.length ≠ 0) :
    s ≠ s ++ t := by
  intro h
  have hl := congrArg String.length h
  rw [String.length_append] at hl
  omega

theorem scanEntries_infoSel (ep : String) (ar : List Entry) (s : ScanState) :
    ((scanEntries ep ar s).infoSel).map Prod.snd =
      lastNamed "info.json" ar (s.infoSel.map Prod.snd) := by
  induction ar generalizing s with
  | nil => rfl
  | cons e rest ih =>
    by_cases h1 : e.name = "info.json"
    · simp [scanEntries, lastNamed, h1, ih]
    · by_cases h2 : e.name = ep
      · have h3 : ep ≠ "info.json" := h2 ▸ h1
        simp [scanEntries, lastNamed, h1, h2, h3, ih]
      · simp [scanEntries, lastNamed, h1, h2, ih]

theorem scanEntries_binSel (ep : String) (hep : ep ≠ "info.json")
    (ar : List Entry) (s : ScanState) :
    ((scanEntries ep ar s).binSel).map Prod.snd =
      lastNamed ep ar (s.binSel.map Prod.snd) := by
  induction ar generalizing s with
  | nil => rfl
  | cons e rest ih =>
    by_cases h1 : e.name = "info.json"
    · have hne : e.name ≠ ep := by rw [h1]; exact Ne.symm hep
      simp [scanEntries, lastNamed, h1, hne, Ne.symm hep, ih]
    · by_cases h2 : e.name = ep
      · simp [scanEntries, lastNamed, h1, h2, hep, ih]
      · simp [scanEntries, lastNamed, h1, h2, ih]

theorem scanOf_infoSel (ep : String) (ar : List Entry) :
    ((scanOf ep ar).infoSel).map Prod.snd = lastNamed "info.json" ar none :=
  scanEntries_infoSel ep ar _

theorem scanOf_binSel (ep : String) (hep : ep ≠ "info.json") (ar : List Entry) :
    ((scanOf ep ar).binSel).map Prod.snd = lastNamed ep ar none :=
  scanEntries_binSel ep hep ar _

theorem lastNamed_eq_none_iff (n : String) (ar : List Entry) (acc : Option (List Char)) :
    lastNamed n ar acc = none ↔ (acc = none ∧ ∀ e ∈ ar, e.name ≠ n) := by
  induction ar generalizing acc with
  | nil => simp [lastNamed]
  | cons e rest ih =>
    by_cases h : e.name = n
    · simp [lastNamed, h, ih]
    · simp [lastNamed, h, ih, and_assoc]

theorem lastNamed_of_filter_nil (n : String) (ar : List Entry)
    (h : ar.filter (fun e => e.name == n) = []) (acc : Option (List Char)) :
    lastNamed n ar acc = acc := by
  induction ar generalizing acc with
  | nil => rfl
  | cons e rest ih =>
    by_cases he : e.name = n
    · simp [List.filter_cons, he] at h
    · simp only [List.filter_cons, he] at h
      simp only [lastNamed, if_neg he]
      exact ih (by simpa [he] using h) acc

theorem lastNamed_of_filter_singleton (n : String) (c : List Char) (ar : List Entry)
    (h : ar.filter (fun e => e.name == n) = [⟨n, c⟩]) (acc : Option (List Char)) :
    lastNamed n ar acc = some c := by
  induction ar generalizing acc with
  | nil => simp at h
  | cons e rest ih =>
    by_cases he : e.name = n
    · simp only [List.filter_cons, he] at h
      rw [if_pos (by simp [he])] at h
      have hcons := List.cons_eq_cons.mp h
      obtain ⟨he2, hrest⟩ := hcons
      simp only [lastNamed, if_pos he]
      rw [lastNamed_of_filter_nil n rest hrest]
      rw [he2]
    · simp only [List.filter_cons, he] at h
      rw [if_neg (by simp [he])] at h
      simp only [lastNamed, if_neg he]
      exact ih h acc

/-! Concrete sample data used by witnesses and counterexamples. -/

/-- The metadata entry content of the spec's scenario. -/
def sampleInfoContent : List Char :=
  ("\x7b\"name\":\"svc\",\"version\":\"1.2.3\",\"description\":\"x\"\x7d").data

/-- The metadata the sample content decodes to. -/
def sampleInfo : Info :=
  { name := "svc", version := "1.2.3", description := "x" }

/-- Sample binary payload bytes. -/
def sampleBinary : List Char := ['\x01', '\x02', '\x03']

/-- A well-formed archive holding the metadata entry and a binary entry
named by the executable path `"/srv/app"`. -/
def sampleArchive : List Entry :=
  [⟨"info.json", sampleInfoContent⟩, ⟨"/srv/app", sampleBinary⟩]

/-- The well-formed archive plus one further entry matching neither
required name. -/
def sampleArchiveExtra : List Entry :=
  [⟨"info.json", sampleInfoContent⟩, ⟨"/srv/app", sampleBinary⟩, ⟨"notes.txt", ['n']⟩]

/-- An archive whose metadata entry holds content that is not valid JSON. -/
def sampleArchiveBadJson : List Entry :=
  [⟨"info.json", ("not json").data⟩, ⟨"/srv/app", sampleBinary⟩]

/-- An archive missing the metadata entry. -/
def sampleArchiveNoInfo : List Entry :=
  [⟨"/srv/app", sampleBinary⟩]

/-- An archive whose binary entry is named by a fixed logical key
instead of the executable path. -/
def sampleArchiveWrongBin : List Entry :=
  [⟨"info.json", sampleInfoContent⟩, ⟨"binary", sampleBinary⟩]

/-! Claim theorems. -/

/-- C1: for every archive containing both required entries — a metadata
entry named "info.json" whose content decodes as a JSON object with the
string fields, and a binary payload entry named by the executable path —
`unpack` returns exactly the decoded metadata and writes a staged file
at `execPath ++ ".new"` whose bytes equal the binary entry's content. -/
theorem c1_unpack_wellformed (ep path : String) (ar : List Entry) (fs : FS)
    (ci cb : List Char) (i : Info)
    (harc : fs.lookup path = some (.archive ar))
    (hep : ep ≠ "info.json")
    (hinfo : ar.filter (fun e => e.name == "info.json") = [⟨"info.json", ci⟩])
    (hbin : ar.filter (fun e => e.name == ep) = [⟨ep, cb⟩])
    (hdec : decodeInfo ci = some i) :
    (unpack ep path fs).res = .ok i ∧
    (unpack ep path fs).fs.lookup (ep ++ ".new") = some (.bytes cb) := by
  have hi := scanOf_infoSel ep ar
  rw [lastNamed_of_filter_singleton "info.json" ci ar hinfo none] at hi
  have hb := scanOf_binSel ep hep ar
  rw [lastNamed_of_filter_singleton ep cb ar hbin none] at hb
  obtain ⟨x, hx, hx2⟩ := Option.map_eq_some'.mp hi
  obtain ⟨y, hy, hy2⟩ := Option.map_eq_some'.mp hb
  obtain ⟨x1, x2⟩ := x
  obtain ⟨y1, y2⟩ := y
  simp only at hx2 hy2
  subst hx2
  subst hy2
  simp [unpack, harc, hx, hy, hdec, FS.lookup_set_self]

/-- C1 witness: the spec's scenario archive evaluated concretely. -/
theorem c1_unpack_wellformed_witness :
    (unpack "/srv/app" "/tmp/dl" [("/tmp/dl", FileData.archive sampleArchive)]).res
        = .ok sampleInfo ∧
    (unpack "/srv/app" "/tmp/dl"
        [("/tmp/dl", FileData.archive sampleArchive)]).fs.lookup ("/srv/app" ++ ".new")
        = some (.bytes sampleBinary) :=
  c1_unpack_wellformed "/srv/app" "/tmp/dl" sampleArchive
    [("/tmp/dl", FileData.archive sampleArchive)] sampleInfoContent sampleBinary sampleInfo
    (by decide) (by decide) (by decide) (by decide) (by decide)

/-- C10: whenever `unpack` returns an error — in particular the
missing-entry error or a decode error — the filesystem is unchanged: no
file has been created at `execPath ++ ".new"` by that invocation,
because decoding happens strictly before `os.Create`. -/
theorem c10_unpack_error_no_staged_file (ep path : String) (fs : FS) (e : UErr)
    (h : (unpack ep path fs).res = .error e) :
    (unpack ep path fs).fs = fs := by
  rcases hl : fs.lookup path with _ | v
  · simp [unpack, hl]
  · rcases v with bs | ar
    · simp [unpack, hl]
    · rcases h1 : (scanOf ep ar).infoSel with _ | ⟨⟨hi1, ci1⟩⟩
      · simp [unpack, hl, h1]
      · rcases h2 : (scanOf ep ar).binSel with _ | ⟨⟨hb1, cb1⟩⟩
        · simp [unpack, hl, h1, h2]
        · rcases h3 : decodeInfo ci1 with _ | i
          · simp [unpack, hl, h1, h2, h3]
          · simp [unpack, hl, h1, h2, h3] at h

/-- C10 witness: a decode failure leaves the filesystem untouched. -/
theorem c10_unpack_error_no_staged_file_witness :
    (unpack "/srv/app" "/tmp/dl" [("/tmp/dl", FileData.archive sampleArchiveBadJson)]).fs
      = [("/tmp/dl", FileData.archive sampleArchiveBadJson)] :=
  c10_unpack_error_no_staged_file "/srv/app" "/tmp/dl"
    [("/tmp/dl", FileData.archive sampleArchiveBadJson)] .decodeError rfl

/-- C7: when the metadata entry or the binary entry is absent from the
archive, `unpack` returns the missing-entry ArchiveError and leaves the
filesystem unchanged, so no staged file results from that call. -/
theorem c7_unpack_missing_entry_no_output (ep path : String) (ar : List Entry) (fs : FS)
    (harc : fs.lookup path = some (.archive ar))
    (hep : ep ≠ "info.json")
    (hmiss : lastNamed "info.json" ar none = none ∨ lastNamed ep ar none = none) :
    (unpack ep path fs).res = .error .archiveError ∧ (unpack ep path fs).fs = fs := by
  have hi := scanOf_infoSel ep ar
  have hb := scanOf_binSel ep hep ar
  rcases h1 : (scanOf ep ar).infoSel with _ | ⟨⟨hi1, ci1⟩⟩
  · rcases h2 : (scanOf ep ar).binSel with _ | ⟨⟨hb1, cb1⟩⟩
    · simp [unpack, harc, h1, h2]
    · simp [unpack, harc, h1, h2]
  · rcases h2 : (scanOf ep ar).binSel with _ | ⟨⟨hb1, cb1⟩⟩
    · simp [unpack, harc, h1, h2]
    · rw [h1] at hi
      rw [h2] at hb
      rcases hmiss with hm | hm
      · rw [← hi] at hm
        simp at hm
      · rw [← hb] at hm
        simp at hm

/-- C7 witness: the spec's scenario of an archive missing `info.json`. -/
theorem c7_unpack_missing_entry_no_output_witness :
    (unpack "/srv/app" "/tmp/dl" [("/tmp/dl", FileData.archive sampleArchiveNoInfo)]).res
        = .error .archiveError ∧
    (unpack "/srv/app" "/tmp/dl" [("/tmp/dl", FileData.archive sampleArchiveNoInfo)]).fs
        = [("/tmp/dl", FileData.archive sampleArchiveNoInfo)] :=
  c7_unpack_missing_entry_no_output "/srv/app" "/tmp/dl" sampleArchiveNoInfo
    [("/tmp/dl", FileData.archive sampleArchiveNoInfo)] (by decide) (by decide)
    (by decide)

/-- C9: `unpack` identifies the binary payload entry as the entry whose
name equals the executable path: the selected binary content is exactly
that of the last entry named `ep`, and an archive with no entry named
`ep` (its binary entry named anything else) yields the missing-entry
ArchiveError. -/
theorem c9_binary_keyed_by_execpath (ep path : String) (ar : List Entry) (fs : FS)
    (harc : fs.lookup path = some (.archive ar))
    (hep : ep ≠ "info.json")
    (hnone : ∀ e ∈ ar, e.name ≠ ep) :
    (unpack ep path fs).res = .error .archiveError ∧
    (∀ ar2, ((scanOf ep ar2).binSel).map Prod.snd = lastNamed ep ar2 none) := by
  refine ⟨?_, fun ar2 => scanOf_binSel ep hep ar2⟩
  have hb := scanOf_binSel ep hep ar
  rw [(lastNamed_eq_none_iff ep ar none).mpr ⟨rfl, hnone⟩] at hb
  have hbn : (scanOf ep ar).binSel = none := Option.map_eq_none'.mp hb
  rcases h1 : (scanOf ep ar).infoSel with _ | ⟨⟨hi1, ci1⟩⟩
  · simp [unpack, harc, h1, hbn]
  · simp [unpack, harc, h1, hbn]

/-- C9 witness: an archive whose binary entry is named "binary" rather
than the executable path is rejected with the missing-entry error. -/
theorem c9_binary_keyed_by_execpath_witness :
    (unpack "/srv/app" "/tmp/dl" [("/tmp/dl", FileData.archive sampleArchiveWrongBin)]).res
        = .error .archiveError ∧
    (∀ ar2, ((scanOf "/srv/app" ar2).binSel).map Prod.snd = lastNamed "/srv/app" ar2 none) :=
  c9_binary_keyed_by_execpath "/srv/app" "/tmp/dl" sampleArchiveWrongBin
    [("/tmp/dl", FileData.archive sampleArchiveWrongBin)] (by decide) (by decide)
    (by decide)

/-- C2: `unpack` fails with the missing-entry ArchiveError exactly when
the metadata entry or the binary entry is absent, with the DecodeError —
a distinct error kind — exactly when both entries are present but the
metadata content does not decode as JSON, and, given that the archive
opens, these are the only failure causes. -/
theorem c2_unpack_error_kinds (ep path : String) (ar : List Entry) (fs : FS)
    (harc : fs.lookup path = some (.archive ar))
    (hep : ep ≠ "info.json") :
    ((unpack ep path fs).res = .error .archiveError ↔
      (lastNamed "info.json" ar none = none ∨ lastNamed ep ar none = none)) ∧
    ((unpack ep path fs).res = .error .decodeError ↔
      (∃ ci, lastNamed "info.json" ar none = some ci ∧
        lastNamed ep ar none ≠ none ∧ decodeInfo ci = none)) ∧
    (∀ e, (unpack ep path fs).res = .error e →
      e = .archiveError ∨ e = .decodeError) := by
  have hi := scanOf_infoSel ep ar
  have hb := scanOf_binSel ep hep ar
  rcases h1 : (scanOf ep ar).infoSel with _ | ⟨⟨hi1, ci1⟩⟩ <;>
    rcases h2 : (scanOf ep ar).binSel with _ | ⟨⟨hb1, cb1⟩⟩ <;>
      rw [h1] at hi <;> rw [h2] at hb <;> simp only [Option.map_none', Option.map_some'] at hi hb
  · simp [unpack, harc, h1, h2, ← hi]
  · simp [unpack, harc, h1, h2, ← hi]
  · simp [unpack, harc, h1, h2, ← hi, ← hb]
  · rcases h3 : decodeInfo ci1 with _ | i
    · simp [unpack, harc, h1, h2, h3, ← hi, ← hb]
    · simp [unpack, harc, h1, h2, h3, ← hi, ← hb]

/-- C2 witness: the archive with malformed metadata content yields the
DecodeError and only the stated failure kinds arise. -/
theorem c2_unpack_error_kinds_witness :
    ("/srv/app" ≠ "info.json") ∧
    ((unpack "/srv/app" "/tmp/dl"
        [("/tmp/dl", FileData.archive sampleArchiveBadJson)]).res = .error .archiveError ↔
      (lastNamed "info.json" sampleArchiveBadJson none = none ∨
        lastNamed "/srv/app" sampleArchiveBadJson none = none)) ∧
    ((unpack "/srv/app" "/tmp/dl"
        [("/tmp/dl", FileData.archive sampleArchiveBadJson)]).res = .error .decodeError ↔
      (∃ ci, lastNamed "info.json" sampleArchiveBadJson none = some ci ∧
        lastNamed "/srv/app" sampleArchiveBadJson none ≠ none ∧ decodeInfo ci = none)) ∧
    (∀ e, (unpack "/srv/app" "/tmp/dl"
        [("/tmp/dl", FileData.archive sampleArchiveBadJson)]).res = .error e →
      e = .archiveError ∨ e = .decodeError) :=
  ⟨by decide,
    c2_unpack_error_kinds "/srv/app" "/tmp/dl" sampleArchiveBadJson
      [("/tmp/dl", FileData.archive sampleArchiveBadJson)] (by decide) (by decide)⟩

/-- C8 fails as stated: on an archive holding a third entry matching
neither required name, that entry's handle (id 3) is opened during the
scan but is not among the handles closed when `unpack` returns, even
though the call succeeds. -/
theorem c8_handle_left_open_counterexample :
    3 ∈ (unpack "/srv/app" "/tmp/dl"
        [("/tmp/dl", FileData.archive sampleArchiveExtra)]).opened ∧
    3 ∉ (unpack "/srv/app" "/tmp/dl"
        [("/tmp/dl", FileData.archive sampleArchiveExtra)]).closed := by
  decide

/-- C8 amended: on every execution of `unpack` that opens the archive,
the archive handle (id 0) is closed before returning on every exit path,
and the entry handles finally selected for the metadata and the binary
entry are closed on every exit path on which both entries were found;
handles of other opened entries are not guaranteed to be released. -/
theorem c8_selected_handles_released (ep path : String) (ar : List Entry) (fs : FS)
    (harc : fs.lookup path = some (.archive ar)) :
    (0 ∈ (unpack ep path fs).closed) ∧
    (∀ hi ci hb cb, (scanOf ep ar).infoSel = some (hi, ci) →
      (scanOf ep ar).binSel = some (hb, cb) →
      hi ∈ (unpack ep path fs).closed ∧ hb ∈ (unpack ep path fs).closed) := by
  constructor
  · rcases h1 : (scanOf ep ar).infoSel with _ | ⟨⟨hi1, ci1⟩⟩
    · simp [unpack, harc, h1]
    · rcases h2 : (scanOf ep ar).binSel with _ | ⟨⟨hb1, cb1⟩⟩
      · simp [unpack, harc, h1, h2]
      · rcases h3 : decodeInfo ci1 with _ | i
        · simp [unpack, harc, h1, h2, h3]
        · simp [unpack, harc, h1, h2, h3]
  · intro hi ci hb cb h1 h2
    rcases h3 : decodeInfo ci with _ | i
    · simp [unpack, harc, h1, h2, h3]
    · simp [unpack, harc, h1, h2, h3]

/-- C8 amended witness: on the well-formed sample archive the archive
handle and both selected entry handles (ids 1 and 2) are closed. -/
theorem c8_selected_handles_released_witness :
    0 ∈ (unpack "/srv/app" "/tmp/dl"
        [("/tmp/dl", FileData.archive sampleArchive)]).closed ∧
    1 ∈ (unpack "/srv/app" "/tmp/dl"
        [("/tmp/dl", FileData.archive sampleArchive)]).closed ∧
    2 ∈ (unpack "/srv/app" "/tmp/dl"
        [("/tmp/dl", FileData.archive sampleArchive)]).closed :=
  ⟨(c8_selected_handles_released "/srv/app" "/tmp/dl" sampleArchive
      [("/tmp/dl", FileData.archive sampleArchive)] (by decide)).1,
    ((c8_selected_handles_released "/srv/app" "/tmp/dl" sampleArchive
      [("/tmp/dl", FileData.archive sampleArchive)] (by decide)).2
      1 sampleInfoContent 2 sampleBinary (by decide) (by decide)).1,
    ((c8_selected_handles_released "/srv/app" "/tmp/dl" sampleArchive
      [("/tmp/dl", FileData.archive sampleArchive)] (by decide)).2
      1 sampleInfoContent 2 sampleBinary (by decide) (by decide)).2⟩

/-- C3 evaluation: a cycle whose download copy fails after the temporary
file was created leaves that file on disk when the cycle ends — `fetch`
returns the file name together with the error and `update` returns
before `defer os.Remove` is registered — while a successful cycle and a
cycle failing in `unpack` do remove it. -/
theorem c3_tmpfile_leak_on_copy_failure :
    (update "/srv/app" (.copyError "/tmp/dl" ['Z']) []).2.lookup "/tmp/dl"
        = some (.bytes ['Z']) ∧
    (update "/srv/app" (.copyError "/tmp/dl" ['Z']) []).1 = .error .transportError ∧
    (update "/srv/app" (.ok "/tmp/dl" sampleArchive) []).2.lookup "/tmp/dl" = none ∧
    (update "/srv/app" (.ok "/tmp/dl" sampleArchiveNoInfo) []).2.lookup "/tmp/dl" = none :=
  ⟨by decide, rfl, by decide, by decide⟩

theorem pollLoop_ignores_after_done (ep : String) (pre post : List Ev) :
    ∀ fs, pollLoop ep (pre ++ Ev.done :: post) fs = pollLoop ep (pre ++ [Ev.done]) fs := by
  induction pre with
  | nil => intro fs; rfl
  | cons e pre ih =>
    intro fs
    cases e with
    | done => rfl
    | tick fo =>
      simp only [List.cons_append, pollLoop]
      rcases hr : (update ep fo fs).1 with e | i
      · simp only [hr, List.append_eq, ih]
      · simp only [hr, List.append_eq, ih]

theorem pollLoop_length_le (ep : String) (evs : List Ev) :
    ∀ fs, (pollLoop ep evs fs).1.length ≤ (evs.filter Ev.isTick).length := by
  induction evs with
  | nil => intro fs; simp [pollLoop]
  | cons e rest ih =>
    intro fs
    cases e with
    | done => simp [pollLoop]
    | tick fo =>
      simp only [pollLoop, List.filter_cons, Ev.isTick]
      rcases hr : (update ep fo fs).1 with e | i
      · simp only [hr]
        exact le_trans (ih _) (by simp)
      · simp only [hr, List.length_cons]
        simpa using ih ((update ep fo fs).2)

theorem pollLoop_tick_ok (ep : String) (fo : FetchOutcome) (rest : List Ev)
    (fs : FS) (i : Info) (h : (update ep fo fs).1 = .ok i) :
    (pollLoop ep (Ev.tick fo :: rest) fs).1
      = i :: (pollLoop ep rest (update ep fo fs).2).1 := by
  simp [pollLoop, h]

theorem pollLoop_tick_error (ep : String) (fo : FetchOutcome) (rest : List Ev)
    (fs : FS) (e : UpdErr) (h : (update ep fo fs).1 = .error e) :
    (pollLoop ep (Ev.tick fo :: rest) fs).1
      = (pollLoop ep rest (update ep fo fs).2).1 := by
  simp [pollLoop, h]

theorem pollLoop_inflight_completes (ep : String) (fo : FetchOutcome)
    (post : List Ev) (fs : FS) :
    (pollLoop ep (Ev.tick fo :: Ev.done :: post) fs).2 = (update ep fo fs).2 := by
  rcases hr : (update ep fo fs).1 with e | i
  · simp [pollLoop, hr]
  · simp [pollLoop, hr]

/-- C4: the poll loop emits at most one metadata value per tick and in
cycle order (a successful tick's value precedes everything emitted
later, a failing tick emits nothing), emits nothing once the
cancellation event is observed between ticks, and a cycle in flight when
cancellation arrives still completes — the loop's final filesystem
reflects the full cycle. -/
theorem c4_poll_loop_temporal (ep : String) :
    (∀ pre post fs, pollLoop ep (pre ++ Ev.done :: post) fs
        = pollLoop ep (pre ++ [Ev.done]) fs) ∧
    (∀ evs fs, (pollLoop ep evs fs).1.length ≤ (evs.filter Ev.isTick).length) ∧
    (∀ fo rest fs i, (update ep fo fs).1 = .ok i →
      (pollLoop ep (Ev.tick fo :: rest) fs).1
        = i :: (pollLoop ep rest (update ep fo fs).2).1) ∧
    (∀ fo rest fs e, (update ep fo fs).1 = .error e →
      (pollLoop ep (Ev.tick fo :: rest) fs).1
        = (pollLoop ep rest (update ep fo fs).2).1) ∧
    (∀ fo post fs, (pollLoop ep (Ev.tick fo :: Ev.done :: post) fs).2
        = (update ep fo fs).2) :=
  ⟨fun pre post fs => pollLoop_ignores_after_done ep pre post fs,
   fun evs fs => pollLoop_length_le ep evs fs,
   fun fo rest fs i h => pollLoop_tick_ok ep fo rest fs i h,
   fun fo rest fs e h => pollLoop_tick_error ep fo rest fs e h,
   fun fo post fs => pollLoop_inflight_completes ep fo post fs⟩

/-- C4 witness: the temporal properties evaluated on concrete traces,
discharging the cycle-result hypotheses by evaluation. -/
theorem c4_poll_loop_temporal_witness :
    (pollLoop "/srv/app" ([Ev.tick (FetchOutcome.ok "/tmp/dl" sampleArchive)]
        ++ Ev.done :: [Ev.tick (FetchOutcome.ok "/tmp/dl" sampleArchive)]) []
      = pollLoop "/srv/app"
          ([Ev.tick (FetchOutcome.ok "/tmp/dl" sampleArchive)] ++ [Ev.done]) []) ∧
    ((pollLoop "/srv/app" [Ev.tick (FetchOutcome.ok "/tmp/dl" sampleArchive), Ev.done] []).1
      = sampleInfo :: (pollLoop "/srv/app" [Ev.done]
          (update "/srv/app" (FetchOutcome.ok "/tmp/dl" sampleArchive) []).2).1) ∧
    ((pollLoop "/srv/app" [Ev.tick FetchOutcome.getError, Ev.done] []).1
      = (pollLoop "/srv/app" [Ev.done]
          (update "/srv/app" FetchOutcome.getError []).2).1) ∧
    ((pollLoop "/srv/app" [Ev.tick (FetchOutcome.ok "/tmp/dl" sampleArchive), Ev.done] []).2
      = (update "/srv/app" (FetchOutcome.ok "/tmp/dl" sampleArchive) []).2) :=
  ⟨(c4_poll_loop_temporal "/srv/app").1 _ _ _,
   (c4_poll_loop_temporal "/srv/app").2.2.1 _ _ _ sampleInfo rfl,
   (c4_poll_loop_temporal "/srv/app").2.2.2.1 _ _ _ .transportError rfl,
   (c4_poll_loop_temporal "/srv/app").2.2.2.2 _ _ _⟩

/-- The currently running process of the sample worlds. -/
def sampleProc : Proc :=
  { pid := 7, exe := "/srv/app", args := ["app", "-v"], env := [("K", "V")],
    files := [0, 1, 2], dir := "/srv" }

/-- A world with the current process but no file at the executable path,
so the rename step of `restartAndUpdate` fails. -/
def sampleWorldNoExe : World :=
  { fs := [], procs := [sampleProc], selfPid := 7, args := ["app", "-v"],
    env := [("K", "V")], stdioFiles := [0, 1, 2], nextPid := 8 }

/-- A world with the executable present at "/srv/app". -/
def sampleWorld : World :=
  { fs := [("/srv/app", FileData.bytes sampleBinary)], procs := [sampleProc],
    selfPid := 7, args := ["app", "-v"], env := [("K", "V")],
    stdioFiles := [0, 1, 2], nextPid := 8 }

/-- C5: when the rename of the executable to its ".old" backup fails,
`restartAndUpdate` aborts with that error: the world — filesystem and
process table — is unchanged and no side effect (no rename, no spawn,
no kill) has happened. -/
theorem c5_restart_rename_failure (ep : String) (spawnOk : Bool) (w : World)
    (h : w.fs.lookup ep = none) :
    (restartAndUpdate ep spawnOk w).res = .error .renameError ∧
    (restartAndUpdate ep spawnOk w).world = w ∧
    (restartAndUpdate ep spawnOk w).trace = [] := by
  simp [restartAndUpdate, renameFile, h]

/-- C5 witness: rename failure on the world without the executable. -/
theorem c5_restart_rename_failure_witness :
    (restartAndUpdate "/srv/app" true sampleWorldNoExe).res = .error .renameError ∧
    (restartAndUpdate "/srv/app" true sampleWorldNoExe).world = sampleWorldNoExe ∧
    (restartAndUpdate "/srv/app" true sampleWorldNoExe).trace = [] :=
  c5_restart_rename_failure "/srv/app" true sampleWorldNoExe (by decide)

/-- C6: on success `restartAndUpdate` performs, in order, the rename of
the executable to its ".old" path, the spawn of a new process from the
original executable path inheriting the current argument vector,
environment and standard stream files with working directory the
executable's directory, and the kill of the current process; afterwards
the original path is vacated, its content sits at the ".old" path, the
new process with the same argument vector is in the process table and
the current process is not. -/
theorem c6_restart_success_steps (ep : String) (w : World) (v : FileData)
    (h : w.fs.lookup ep = some v)
    (hfresh : w.nextPid ≠ w.selfPid) :
    (restartAndUpdate ep true w).res = .ok () ∧
    (restartAndUpdate ep true w).trace =
      [RsEv.renamed ep (ep ++ ".old"),
       RsEv.spawned { pid := w.nextPid, exe := ep, args := w.args, env := w.env,
                      files := w.stdioFiles, dir := dirOf ep },
       RsEv.killed w.selfPid] ∧
    (restartAndUpdate ep true w).world.fs.lookup ep = none ∧
    (restartAndUpdate ep true w).world.fs.lookup (ep ++ ".old") = some v ∧
    ({ pid := w.nextPid, exe := ep, args := w.args, env := w.env,
       files := w.stdioFiles, dir := dirOf ep } : Proc)
      ∈ (restartAndUpdate ep true w).world.procs ∧
    (∀ q ∈ (restartAndUpdate ep true w).world.procs, q.pid ≠ w.selfPid) := by
  have hne : ep ≠ ep ++ ".old" := String.ne_self_append ep ".old" (by decide)
  refine ⟨?_, ?_, ?_, ?_, ?_, ?_⟩
  · simp [restartAndUpdate, renameFile, h]
  · simp [restartAndUpdate, renameFile, h]
  · simp only [restartAndUpdate, renameFile, h, if_true]
    rw [FS.lookup_set_ne _ _ _ _ (Ne.symm hne), FS.lookup_remove_self]
  · simp only [restartAndUpdate, renameFile, h, if_true]
    exact FS.lookup_set_self _ _ _
  · simp only [restartAndUpdate, renameFile, h, if_true]
    refine List.mem_filter.mpr ⟨by simp, ?_⟩
    simpa using hfresh
  · simp only [restartAndUpdate, renameFile, h, if_true]
    intro q hq
    have hpred := (List.mem_filter.mp hq).2
    simpa using hpred

/-- C6 witness: the success path evaluated on the sample world. -/
theorem c6_restart_success_steps_witness :
    (restartAndUpdate "/srv/app" true sampleWorld).res = .ok () ∧
    (restartAndUpdate "/srv/app" true sampleWorld).trace =
      [RsEv.renamed "/srv/app" ("/srv/app" ++ ".old"),
       RsEv.spawned { pid := sampleWorld.nextPid, exe := "/srv/app",
                      args := sampleWorld.args, env := sampleWorld.env,
                      files := sampleWorld.stdioFiles, dir := dirOf "/srv/app" },
       RsEv.killed sampleWorld.selfPid] ∧
    (restartAndUpdate "/srv/app" true sampleWorld).world.fs.lookup "/srv/app" = none ∧
    (restartAndUpdate "/srv/app" true sampleWorld).world.fs.lookup ("/srv/app" ++ ".old")
      = some (FileData.bytes sampleBinary) ∧
    ({ pid := sampleWorld.nextPid, exe := "/srv/app", args := sampleWorld.args,
       env := sampleWorld.env, files := sampleWorld.stdioFiles,
       dir := dirOf "/srv/app" } : Proc)
      ∈ (restartAndUpdate "/srv/app" true sampleWorld).world.procs ∧
    (∀ q ∈ (restartAndUpdate "/srv/app" true sampleWorld).world.procs,
      q.pid ≠ sampleWorld.selfPid) :=
  c6_restart_success_steps "/srv/app" sampleWorld (FileData.bytes sampleBinary)
    (by decide) (by decide)

end Updater
